import Mathlib

/-!
Verification development for the gomelon application-composition runtime
(lifecycle and administration orchestration core).

The Go source is shallowly embedded: each Go method becomes a Lean
function over explicit state.  Side effects (invoking `Start`/`Stop`
on a managed object, writing to an HTTP response, logging a warning)
are made visible as returned traces or response records.  Go errors
(`error` values, `nil` meaning success) are `Option String`.
-/

namespace Gomelon

/-! ## Lifecycle (core/lifecycle.go)

A `Managed` object carries an identity (registration is the only
identity a managed object has) and the outcomes its `Start` and `Stop`
hooks would return when invoked. -/

/-- A managed object: `Start() error` and `Stop() error` hooks.
`startErr`/`stopErr` are the errors those hooks return
(`none` is Go `nil`). -/
structure Managed where
  id : Nat
  startErr : Option String
  stopErr : Option String
deriving Repr, DecidableEq

/-- `LifecycleEnvironment` from core/lifecycle.go: the ordered slice
`managedObjects`. -/
structure LifecycleEnvironment where
  managedObjects : List Managed
deriving Repr, DecidableEq

/-- `NewLifecycleEnvironment` allocates an empty environment. -/
def NewLifecycleEnvironment : LifecycleEnvironment :=
  { managedObjects := [] }

/-- `Manage(obj)` appends `obj` to `managedObjects`
(Go `append(env.managedObjects, obj)`). -/
def Manage (env : LifecycleEnvironment) (obj : Managed) : LifecycleEnvironment :=
  { env with managedObjects := env.managedObjects ++ [obj] }

/-- Registering a whole sequence of objects, one `Manage` call each. -/
def manageAll (objs : List Managed) : LifecycleEnvironment :=
  objs.foldl Manage NewLifecycleEnvironment

/-- One invocation record of a lifecycle hook: the object's identity and
the error the hook returned (`none` for success). -/
abbrev LifeEvent := Nat × Option String

/-- The body of the `onStarting` loop: invoke `Start()` on each object of
the slice in order, recording every invocation.  The loop never
aborts: an error only yields a logged warning. -/
def startAll : List Managed → List LifeEvent
  | [] => []
  | m :: rest => (m.id, m.startErr) :: startAll rest

/-- The body of the `onStopped` loop over the objects it visits, in
visiting order. -/
def stopAll : List Managed → List LifeEvent
  | [] => []
  | m :: rest => (m.id, m.stopErr) :: stopAll rest

/-- `onStarting` iterates `managedObjects` forward
(`for i := range env.managedObjects`), calling `Start` on each. -/
def onStarting (env : LifecycleEnvironment) : List LifeEvent :=
  startAll env.managedObjects

/-- `onStopped` iterates `managedObjects` backward
(`for i := len(env.managedObjects) - 1; i >= 0; i--`), calling `Stop`
on each. -/
def onStopped (env : LifecycleEnvironment) : List LifeEvent :=
  stopAll env.managedObjects.reverse

/-- The warnings `onStarting` logs: one per failed `Start`. -/
def startWarnings (env : LifecycleEnvironment) : List String :=
  (onStarting env).filterMap Prod.snd

/-- The warnings `onStopped` logs: one per failed `Stop`. -/
def stopWarnings (env : LifecycleEnvironment) : List String :=
  (onStopped env).filterMap Prod.snd

/-! ## Bootstrap (core/bootstrap.go) -/

/-- A bundle: identity plus the result its `Run(configuration,
environment)` would return (`none` is Go `nil`). -/
structure Bundle where
  id : Nat
  runResult : Option String
deriving Repr, DecidableEq

/-- `Bootstrap` keeps the ordered slice of registered bundles. -/
structure Bootstrap where
  bundles : List Bundle
deriving Repr, DecidableEq

/-- `AddBundle` appends the bundle to the ordered sequence
(the `bundle.Initialize(bootstrap)` side effect touches only
commands/bundles registration, not the run policy modelled here). -/
def AddBundle (b : Bootstrap) (bundle : Bundle) : Bootstrap :=
  { b with bundles := b.bundles ++ [bundle] }

/-- The loop of `Bootstrap.Run`: call `Run` on each bundle in order,
returning the first error immediately; record each invocation.
Returns (invocation trace, returned error). -/
def runBundles : List Bundle → List Nat × Option String
  | [] => ([], none)
  | b :: rest =>
    match b.runResult with
    | some e => ([b.id], some e)
    | none =>
      let r := runBundles rest
      (b.id :: r.1, r.2)

/-- `Bootstrap.Run(configuration, environment)`. -/
def bootstrapRun (b : Bootstrap) : List Nat × Option String :=
  runBundles b.bundles

/-! ## HTTP responses

An `http.ResponseWriter` is observed through the response it produced:
status code (200 when `WriteHeader` is never called), the headers set
via `Header().Set`, and the accumulated body bytes. -/

/-- The observable outcome of serving one HTTP request. -/
structure Response where
  status : Nat
  headers : List (String × String)
  body : String
deriving Repr, DecidableEq

/-- The `Cache-Control` header/value pair set by the admin page
handlers. -/
def cacheControlHeader : String × String :=
  ("Cache-Control", "must-revalidate,no-cache,no-store")

/-- Sequential `Fprintf`/`Write` calls concatenate onto the response
body in order. -/
def concatAll : List String → String
  | [] => ""
  | s :: rest => s ++ concatAll rest

/-! ## Health checks (core/admin.go, healthCheckHandler)

`health.Registry.RunHealthChecks()` returns `map[string]*health.Result`;
the handler iterates it in an order the map does not fix, so the
embedding takes the name-keyed results in their iteration order as
input. -/

/-- `health.Result`: healthy flag, optional message (Go empty string
means absent), optional cause (Go `nil` error means absent). -/
structure HealthResult where
  Healthy : Bool
  Message : String
  Cause : Option String
deriving Repr, DecidableEq

/-- Go `%t` formatting of a bool. -/
def boolString : Bool → String
  | true => "true"
  | false => "false"

/-- The `isAllHealthy` loop of core/admin.go. -/
def isAllHealthy : List (String × HealthResult) → Bool
  | [] => true
  | (_, r) :: rest => if !r.Healthy then false else isAllHealthy rest

/-- The body block the healthcheck response loop writes for one check:
`<name>:\n\tHealthy: <bool>\n`, then `\tMessage: <text>\n` when the
message is non-empty, then `\tCause: <err>\n` when the cause is
non-nil. -/
def fmtHealthResult (name : String) (r : HealthResult) : String :=
  name ++ ":\n\tHealthy: " ++ boolString r.Healthy ++ "\n"
    ++ (if r.Message == "" then "" else "\tMessage: " ++ r.Message ++ "\n")
    ++ (match r.Cause with
        | none => ""
        | some c => "\tCause: " ++ c ++ "\n")

/-- `healthCheckHandler.ServeHTTP`, as a function of the results map
(in iteration order). -/
def healthCheckServe (results : List (String × HealthResult)) : Response :=
  let hs := [cacheControlHeader, ("Content-Type", "text/plain")]
  if results.length == 0 then
    { status := 501, headers := hs, body := "No health checks registered." }
  else
    { status := if !isAllHealthy results then 500 else 200
      headers := hs
      body := concatAll (results.map fun p => fmtHealthResult p.1 p.2) }

/-! ## Ping handler and gc task (core/admin.go) -/

/-- `pingHandler.ServeHTTP`: sets Cache-Control and Content-Type, writes
`pong\n`. -/
def pingServe : Response :=
  { status := 200
    headers := [cacheControlHeader, ("Content-Type", "text/plain")]
    body := "pong\n" }

/-- `gcTask.ServeHTTP`: writes `Running GC...\n`, runs the collector,
writes `Done!\n`.  It sets no headers. -/
def gcTaskServe : Response :=
  { status := 200
    headers := []
    body := "Running GC...\n" ++ "Done!\n" }

/-! ## Admin page handlers: home, metrics, runtime (core/admin.go)

These handlers are embedded as functions of the ambient state they
render (the registered handler list, the expvar registry, the runtime
statistics); their header-setting and body construction follow the
source line by line. An `AdminHandler` entry carries its route path
and display name. -/

/-- An `AdminHandler`: display name and route path. -/
structure AdminHandler where
  routePath : String
  displayName : String
deriving Repr, DecidableEq

/-- `adminHomeHandler.ServeHTTP`: one `<li>` link per registered
handler, substituted into the `adminHTML` template; sets Cache-Control
and Content-Type text/html. -/
def adminHomeServe (handlers : List AdminHandler) (contextPath : String) : Response :=
  { status := 200
    headers := [cacheControlHeader, ("Content-Type", "text/html")]
    body := "<!DOCTYPE html>\n<html>\n<head>\n\t<title>Operational Menu</title>\n</head>\n<body>\n\t<h1>Operational Menu</h1>\n\t<ul>"
      ++ concatAll (handlers.map fun h =>
          "<li><a href=\"" ++ contextPath ++ h.routePath ++ "\">" ++ h.displayName ++ "</a></li>")
      ++ "</ul>\n</body>\n</html>\n" }

/-- Go `%q` on an expvar key: a double-quoted string literal.
Backslashes and double quotes are escaped; `%q` would additionally
escape control characters, which do not occur in expvar keys. -/
def goQuote (s : String) : String :=
  "\"" ++ String.mk (s.data.foldr (fun c acc =>
      if c == '\"' then '\\' :: '\"' :: acc
      else if c == '\\' then '\\' :: '\\' :: acc
      else c :: acc) []) ++ "\""

/-- The `expvar.Do` loop of `metricsHandler.ServeHTTP`: `%q: %s` per
variable, a comma before every entry but the first. -/
def metricsItems : Bool → List (String × String) → String
  | _, [] => ""
  | first, (k, v) :: rest =>
    (if first then "" else ",") ++ goQuote k ++ ": " ++ v ++ metricsItems false rest

/-- `metricsHandler.ServeHTTP` as a function of the expvar registry in
iteration order: a flat JSON object; sets Cache-Control and
Content-Type application/json. -/
def metricsServe (kvs : List (String × String)) : Response :=
  { status := 200
    headers := [cacheControlHeader, ("Content-Type", "application/json")]
    body := "\x7b" ++ metricsItems true kvs ++ "\x7d" }

/-- The process statistics `runtimeHandler.ServeHTTP` reads: the three
scheduler counters, the `runtime.MemStats` fields it prints, and the
runtime version string. -/
structure RuntimeStats where
  NumCPU : Nat
  NumCgoCall : Nat
  NumGoroutine : Nat
  Alloc : Nat
  TotalAlloc : Nat
  Sys : Nat
  Lookups : Nat
  Mallocs : Nat
  Frees : Nat
  HeapAlloc : Nat
  HeapSys : Nat
  HeapIdle : Nat
  HeapInuse : Nat
  HeapReleased : Nat
  HeapObjects : Nat
  StackInuse : Nat
  StackSys : Nat
  MSpanInuse : Nat
  MSpanSys : Nat
  MCacheInuse : Nat
  MCacheSys : Nat
  BuckHashSys : Nat
  GCSys : Nat
  OtherSys : Nat
  NextGC : Nat
  LastGC : Nat
  PauseTotalNs : Nat
  NumGC : Nat
  EnableGC : Bool
  DebugGC : Bool
  Version : String
deriving Repr, DecidableEq

/-- The plain-text dump `runtimeHandler.ServeHTTP` writes, one `Fprintf`
per block of the source. -/
def runtimeBody (m : RuntimeStats) : String :=
  "NumCPU: " ++ toString m.NumCPU ++ "\nNumCgoCall: " ++ toString m.NumCgoCall
    ++ "\nNumGoroutine: " ++ toString m.NumGoroutine ++ "\n"
  ++ "MemStats:\n\tAlloc: " ++ toString m.Alloc
    ++ "\n\tTotalAlloc: " ++ toString m.TotalAlloc
    ++ "\n\tSys: " ++ toString m.Sys
    ++ "\n\tLookups: " ++ toString m.Lookups
    ++ "\n\tMallocs: " ++ toString m.Mallocs
    ++ "\n\tFrees: " ++ toString m.Frees ++ "\n"
  ++ "\tHeapAlloc: " ++ toString m.HeapAlloc
    ++ "\n\tHeapSys: " ++ toString m.HeapSys
    ++ "\n\tHeapIdle: " ++ toString m.HeapIdle
    ++ "\n\tHeapInuse: " ++ toString m.HeapInuse
    ++ "\n\tHeapReleased: " ++ toString m.HeapReleased
    ++ "\n\tHeapObjects: " ++ toString m.HeapObjects ++ "\n"
  ++ "\tStackInuse: " ++ toString m.StackInuse
    ++ "\n\tStackSys: " ++ toString m.StackSys
    ++ "\n\tMSpanInuse: " ++ toString m.MSpanInuse
    ++ "\n\tMSpanSys: " ++ toString m.MSpanSys
    ++ "\n\tMCacheInuse: " ++ toString m.MCacheInuse
    ++ "\n\tMCacheSys: " ++ toString m.MCacheSys
    ++ "\n\tBuckHashSys: " ++ toString m.BuckHashSys
    ++ "\n\tGCSys: " ++ toString m.GCSys
    ++ "\n\tOtherSys: " ++ toString m.OtherSys ++ "\n"
  ++ "\tNextGC: " ++ toString m.NextGC
    ++ "\n\tLastGC: " ++ toString m.LastGC
    ++ "\n\tPauseTotalNs: " ++ toString m.PauseTotalNs
    ++ "\n\tNumGC: " ++ toString m.NumGC
    ++ "\n\tEnableGC: " ++ boolString m.EnableGC
    ++ "\n\tDebugGC: " ++ boolString m.DebugGC ++ "\n"
  ++ "Version: " ++ m.Version ++ "\n"

/-- `runtimeHandler.ServeHTTP`: sets Cache-Control and Content-Type
text/plain, writes the statistics dump. -/
def runtimeServe (m : RuntimeStats) : Response :=
  { status := 200
    headers := [cacheControlHeader, ("Content-Type", "text/plain")]
    body := runtimeBody m }

/-! ## Log levels (external collaborator gol, per the spec's fixed
enumeration ALL/TRACE/DEBUG/INFO/WARN/ERROR/OFF) and the log task
(core/admin.go, logTask). -/

/-- `gol.Level`. -/
inductive Level where
  | all | trace | debug | info | warn | err | off
deriving Repr, DecidableEq

/-- `gol.LevelString`: the display name of each level. -/
def LevelString : Level → String
  | .all => "ALL"
  | .trace => "TRACE"
  | .debug => "DEBUG"
  | .info => "INFO"
  | .warn => "WARN"
  | .err => "ERROR"
  | .off => "OFF"

/-- The `logLevels` slice inside `parseLogLevel`. -/
def logLevels : List Level :=
  [.all, .trace, .debug, .info, .warn, .err, .off]

/-- `strings.EqualFold` restricted to the ASCII level names compared
here: case-insensitive equality. -/
def equalFold (a b : String) : Bool :=
  a.data.map Char.toLower == b.data.map Char.toLower

/-- `parseLogLevel`: the first level whose name case-insensitively
equals the argument; Go's `(gol.LevelOff, false)` failure is `none`. -/
def parseLogLevel (level : String) : Option Level :=
  logLevels.find? fun l => equalFold level (LevelString l)

/-- The logger `gol.GetLogger(name)` yields: whether the type assertion
to `*gol.DefaultLogger` succeeds, and its current level. -/
structure GolLogger where
  isDefault : Bool
  level : Level

/-- The ambient gol registry: every name resolves to a logger. -/
def GolState : Type := String → GolLogger

/-- `logger.SetLevel` on one named logger, applied only when the
`*gol.DefaultLogger` type assertion succeeds. -/
def setLoggerLevel (st : GolState) (name : String) (lv : Level) : GolState :=
  if (st name).isDefault then
    fun n => if n == name then { st name with level := lv } else st n
  else
    st

/-- The level-applying loop of `logTask.ServeHTTP`: `SetLevel` on every
named logger that is a `*gol.DefaultLogger`. -/
def setLoggerLevels (st : GolState) (names : List String) (lv : Level) : GolState :=
  names.foldl (fun s n => setLoggerLevel s n lv) st

/-- The reporting loop of `logTask.ServeHTTP`: one
`<name>: <level-string>\n` line per named logger that is a
`*gol.DefaultLogger`. -/
def levelReport (st : GolState) (names : List String) : String :=
  concatAll (names.map fun n =>
    if (st n).isDefault then n ++ ": " ++ LevelString (st n).level ++ "\n" else "")

/-- `url.Values.Get`: the first value under the key, or the empty string
when the key is absent or has no values. -/
def queryGet (values : List String) : String :=
  values.headD ""

/-- `http.Error(w, msg, code)`: sets Content-Type, writes the status
code, and writes the message followed by a newline (`fmt.Fprintln`). -/
def httpError (msg : String) (code : Nat) : Response :=
  { status := code
    headers := [("Content-Type", "text/plain; charset=utf-8")]
    body := msg ++ "\n" }

/-- `logTask.ServeHTTP` as a function of the gol registry and the
request's `logger` and `level` query values.  Returns the registry
after the request and the response. -/
def logTaskServe (st : GolState) (loggers levels : List String) :
    GolState × Response :=
  if loggers.isEmpty then
    (st, { status := 200, headers := [], body := "" })
  else
    let level := queryGet levels
    if level == "" then
      (st, { status := 200, headers := [], body := levelReport st loggers })
    else
      match parseLogLevel level with
      | none => (st, httpError "Level is not supported" 400)
      | some lv =>
        let st' := setLoggerLevels st loggers lv
        (st', { status := 200, headers := [], body := levelReport st' loggers })

/-- A concrete gol registry for concrete runs: every name resolves to a
`*gol.DefaultLogger` at level INFO. -/
def golStateAllInfo : GolState :=
  fun _ => { isDefault := true, level := .info }

/-! ## Admin environment registries (core/admin.go); the `AdminHandler`
entry type is declared with the page handlers above. -/

/-- A `Task`: named invocable operator action, routed at
`/tasks/<name>`. -/
structure AdminTask where
  taskName : String
deriving Repr, DecidableEq

/-- `AdminEnvironment`: the handler and task slices. -/
structure AdminEnvironment where
  handlers : List AdminHandler
  tasks : List AdminTask
deriving Repr, DecidableEq

/-- `AddHandler(handler...)`: appends to the handler slice. -/
def AddHandler (env : AdminEnvironment) (hs : List AdminHandler) : AdminEnvironment :=
  { env with handlers := env.handlers ++ hs }

/-- `AddTask(task...)`: appends to the task slice. -/
def AddTask (env : AdminEnvironment) (ts : List AdminTask) : AdminEnvironment :=
  { env with tasks := env.tasks ++ ts }

/-- `NewAdminEnvironment`: empty registries extended with the four
default handlers (metrics, ping, runtime, healthcheck, at their
declared paths) and the two default tasks (gc, log). -/
def NewAdminEnvironment : AdminEnvironment :=
  let env : AdminEnvironment := { handlers := [], tasks := [] }
  let env := AddHandler env
    [⟨"/metrics", "Metrics"⟩, ⟨"/ping", "Ping"⟩,
     ⟨"/runtime", "Runtime"⟩, ⟨"/healthcheck", "Healthcheck"⟩]
  AddTask env [⟨"gc"⟩, ⟨"log"⟩]

/-! ## Command dispatch (gomelon.go) -/

/-- A `core.Command`: name, one-line description, and the result its
`Run(bootstrap)` would return. -/
structure Command where
  name : String
  description : String
  runResult : Option String
deriving Repr, DecidableEq

/-- What `gomelon.Run` did: ran a matching command (carrying that
command's returned error), or printed the command catalogue. -/
inductive RunOutcome where
  | ran (result : Option String)
  | help (catalogue : List (String × String))
deriving Repr, DecidableEq

/-- The error `gomelon.Run` returns for an outcome: the command's
result, or `nil` after printing help. -/
def outcomeError : RunOutcome → Option String
  | .ran r => r
  | .help _ => none

/-- `printHelp`: the catalogue of registered commands, name and
description each. -/
def printHelp (commands : List Command) : List (String × String) :=
  commands.map fun c => (c.name, c.description)

/-- `gomelon.Run` after `app.Initialize(bootstrap)` registered
`commands`: with a non-empty argument list, the loop returns
`command.Run(bootstrap)` of the first command whose name equals
`args[0]`; otherwise `printHelp` runs and `nil` is returned. -/
def gomelonRun (commands : List Command) (args : List String) : RunOutcome :=
  match args with
  | [] => .help (printHelp commands)
  | a :: _ =>
    match commands.find? (fun c => c.name == a) with
    | some c => .ran c.runResult
    | none => .help (printHelp commands)

/-! ## Helper lemmas -/

theorem foldl_Manage_managedObjects (objs : List Managed) :
    ∀ env : LifecycleEnvironment,
      (objs.foldl Manage env).managedObjects = env.managedObjects ++ objs := by
  induction objs with
  | nil => intro env; simp
  | cons o rest ih =>
    intro env
    rw [List.foldl_cons, ih]
    simp [Manage]

theorem manageAll_managedObjects (objs : List Managed) :
    (manageAll objs).managedObjects = objs := by
  rw [manageAll, foldl_Manage_managedObjects]
  rfl

theorem startAll_eq_map (l : List Managed) :
    startAll l = l.map fun m => (m.id, m.startErr) := by
  induction l with
  | nil => rfl
  | cons m rest ih => rw [startAll, ih, List.map_cons]

theorem stopAll_eq_map (l : List Managed) :
    stopAll l = l.map fun m => (m.id, m.stopErr) := by
  induction l with
  | nil => rfl
  | cons m rest ih => rw [stopAll, ih, List.map_cons]

theorem concatAll_mem_decomp {α : Type} (f : α → String) (l : List α) (a : α)
    (h : a ∈ l) : ∃ s t, concatAll (l.map f) = s ++ f a ++ t := by
  induction l with
  | nil => cases h
  | cons hd tl ih =>
    rcases List.mem_cons.mp h with h | h
    · exact ⟨"", concatAll (tl.map f), by rw [String.empty_append, h, List.map_cons, concatAll]⟩
    · obtain ⟨s, t, heq⟩ := ih h
      refine ⟨f hd ++ s, t, ?_⟩
      rw [List.map_cons, concatAll, heq]
      simp [String.append_assoc]

theorem isAllHealthy_eq_true_iff (l : List (String × HealthResult)) :
    isAllHealthy l = true ↔ ∀ p ∈ l, p.2.Healthy = true := by
  induction l with
  | nil => simp [isAllHealthy]
  | cons hd tl ih =>
    obtain ⟨n, r⟩ := hd
    cases hr : r.Healthy <;> simp [isAllHealthy, hr, ih]

/-! ## Claim theorems -/

/-- C1: for every sequence of managed objects registered via `Manage`,
`onStarting` invokes `Start` in exactly registration order and
`onStopped` invokes `Stop` in exactly reverse registration order; the
objects' `Start`/`Stop` error outcomes are universally quantified, so
the orders hold even when some calls fail. -/
theorem lifecycle_start_stop_order (objs : List Managed) :
    (onStarting (manageAll objs)).map Prod.fst = objs.map Managed.id
  ∧ (onStopped (manageAll objs)).map Prod.fst = (objs.map Managed.id).reverse := by
  constructor
  · rw [onStarting, manageAll_managedObjects, startAll_eq_map, List.map_map]
    rfl
  · rw [onStopped, manageAll_managedObjects, stopAll_eq_map, List.map_map,
      List.map_reverse]
    rfl

/-- C2: every registered object has its `Start` and its `Stop`
attempted, whatever errors any of the hooks return: the invocation
traces always have one entry per registered object, each object's own
invocation (with its error) appears in both traces, and a failing hook
only contributes a logged warning, never an abort. -/
theorem lifecycle_continue_on_error (env : LifecycleEnvironment) (m : Managed)
    (hm : m ∈ env.managedObjects) :
    (m.id, m.startErr) ∈ onStarting env
  ∧ (m.id, m.stopErr) ∈ onStopped env
  ∧ (onStarting env).length = env.managedObjects.length
  ∧ (onStopped env).length = env.managedObjects.length
  ∧ (∀ e, m.startErr = some e → e ∈ startWarnings env)
  ∧ (∀ e, m.stopErr = some e → e ∈ stopWarnings env) := by
  have hstart : (m.id, m.startErr) ∈ onStarting env := by
    rw [onStarting, startAll_eq_map]
    exact List.mem_map_of_mem _ hm
  have hstop : (m.id, m.stopErr) ∈ onStopped env := by
    rw [onStopped, stopAll_eq_map]
    exact List.mem_map_of_mem _ (List.mem_reverse.mpr hm)
  refine ⟨hstart, hstop, ?_, ?_, ?_, ?_⟩
  · rw [onStarting, startAll_eq_map, List.length_map]
  · rw [onStopped, stopAll_eq_map, List.length_map, List.length_reverse]
  · intro e he
    exact List.mem_filterMap.mpr ⟨(m.id, m.startErr), hstart, by simpa using he⟩
  · intro e he
    exact List.mem_filterMap.mpr ⟨(m.id, m.stopErr), hstop, by simpa using he⟩

/-- Witness for C2: with three registered objects where the middle
`Start` and `Stop` fail, all three are attempted in both directions and
the failure is logged. -/
theorem lifecycle_continue_on_error_witness :
    (1, some "bad1") ∈ onStarting ⟨[⟨0, none, none⟩, ⟨1, some "bad1", some "bad2"⟩, ⟨2, none, none⟩]⟩
  ∧ (1, some "bad2") ∈ onStopped ⟨[⟨0, none, none⟩, ⟨1, some "bad1", some "bad2"⟩, ⟨2, none, none⟩]⟩
  ∧ (onStarting ⟨[⟨0, none, none⟩, ⟨1, some "bad1", some "bad2"⟩, ⟨2, none, none⟩]⟩).length = 3
  ∧ (onStopped ⟨[⟨0, none, none⟩, ⟨1, some "bad1", some "bad2"⟩, ⟨2, none, none⟩]⟩).length = 3 := by
  have h := lifecycle_continue_on_error
    ⟨[⟨0, none, none⟩, ⟨1, some "bad1", some "bad2"⟩, ⟨2, none, none⟩]⟩
    ⟨1, some "bad1", some "bad2"⟩ (by simp)
  exact ⟨h.1, h.2.1, h.2.2.1, h.2.2.2.1⟩

/-- C3: `Bootstrap.Run` invokes bundle `Run` in registration order and
stops at the first failing bundle, returning its error unmodified:
when every bundle before `b` succeeds and `b` fails with `e`, the
invocation trace is exactly the bundles up to and including `b` and the
returned error is `e` (later bundles are never invoked); and the run
returns `nil` exactly when every bundle's `Run` returned `nil`. -/
theorem bootstrapRun_fail_fast :
    (∀ (pre : List Bundle) (b : Bundle) (post : List Bundle) (e : String),
        (∀ x ∈ pre, x.runResult = none) → b.runResult = some e →
        bootstrapRun ⟨pre ++ b :: post⟩ = ((pre ++ [b]).map Bundle.id, some e))
  ∧ (∀ bs : List Bundle, (bootstrapRun ⟨bs⟩).2 = none ↔ ∀ x ∈ bs, x.runResult = none) := by
  constructor
  · intro pre
    induction pre with
    | nil =>
      intro b post e _ hb
      simp [bootstrapRun, runBundles, hb]
    | cons x rest ih =>
      intro b post e hpre hb
      have hx : x.runResult = none := hpre x (by simp)
      have hrest : ∀ y ∈ rest, y.runResult = none := fun y hy => hpre y (by simp [hy])
      have h := ih b post e hrest hb
      simp only [bootstrapRun] at h ⊢
      simp [runBundles, hx, h]
  · intro bs
    induction bs with
    | nil => simp [bootstrapRun, runBundles]
    | cons x rest ih =>
      simp only [bootstrapRun] at ih ⊢
      cases hx : x.runResult with
      | some e => simp [runBundles, hx]
      | none => simp [runBundles, hx, ih]

/-- Witness for C3: of three bundles with the second failing, the third
is never invoked and the second's error comes back unmodified; a
two-bundle run with no failures returns `nil`. -/
theorem bootstrapRun_fail_fast_witness :
    bootstrapRun ⟨[⟨0, none⟩, ⟨1, some "boom"⟩, ⟨2, none⟩]⟩ = ([0, 1], some "boom")
  ∧ (bootstrapRun ⟨[⟨0, none⟩, ⟨1, none⟩]⟩).2 = none := by
  constructor
  · have h := bootstrapRun_fail_fast.1 [⟨0, none⟩] ⟨1, some "boom"⟩ [⟨2, none⟩]
      "boom" (by decide) rfl
    simpa using h
  · exact (bootstrapRun_fail_fast.2 [⟨0, none⟩, ⟨1, none⟩]).mpr (by decide)

/-- C4: the healthcheck handler answers 501 with body
`No health checks registered.` when no checks are registered; otherwise
200 when every result is healthy and 500 when at least one is not, and
the body contains, for each check, its
`<name>:\n\tHealthy: <bool>\n` block with the optional
`\tMessage:`/`\tCause:` lines exactly when present. -/
theorem healthCheckServe_spec :
    ((healthCheckServe []).status = 501
      ∧ (healthCheckServe []).body = "No health checks registered.")
  ∧ (∀ results : List (String × HealthResult), results ≠ [] →
      ((∀ p ∈ results, p.2.Healthy = true) → (healthCheckServe results).status = 200)
    ∧ ((∃ p ∈ results, p.2.Healthy = false) → (healthCheckServe results).status = 500)
    ∧ (∀ p ∈ results, ∃ s t, (healthCheckServe results).body
          = s ++ fmtHealthResult p.1 p.2 ++ t)) := by
  refine ⟨⟨rfl, rfl⟩, ?_⟩
  intro results hne
  have hlen : (results.length == 0) = false := by
    simp [List.length_eq_zero, hne]
  refine ⟨?_, ?_, ?_⟩
  · intro hall
    have h : isAllHealthy results = true := (isAllHealthy_eq_true_iff results).mpr hall
    simp [healthCheckServe, hlen, h]
  · rintro ⟨p, hp, hph⟩
    have h : isAllHealthy results = false := by
      cases hh : isAllHealthy results with
      | false => rfl
      | true =>
        have := (isAllHealthy_eq_true_iff results).mp hh p hp
        rw [this] at hph
        cases hph
    simp [healthCheckServe, hlen, h]
  · intro p hp
    have hbody : (healthCheckServe results).body
        = concatAll (results.map fun q => fmtHealthResult q.1 q.2) := by
      simp [healthCheckServe, hlen]
    rw [hbody]
    obtain ⟨s, t, heq⟩ :=
      concatAll_mem_decomp (fun q : String × HealthResult => fmtHealthResult q.1 q.2)
        results p hp
    exact ⟨s, t, heq⟩

/-- Witness for C4: checks A healthy and B unhealthy yield status 500
and a body containing both `A:\n\tHealthy: true\n` and
`B:\n\tHealthy: false\n`. -/
theorem healthCheckServe_spec_witness :
    (healthCheckServe [("A", ⟨true, "", none⟩), ("B", ⟨false, "", none⟩)]).status = 500
  ∧ (∃ s t, (healthCheckServe [("A", ⟨true, "", none⟩), ("B", ⟨false, "", none⟩)]).body
        = s ++ "A:\n\tHealthy: true\n" ++ t)
  ∧ (∃ s t, (healthCheckServe [("A", ⟨true, "", none⟩), ("B", ⟨false, "", none⟩)]).body
        = s ++ "B:\n\tHealthy: false\n" ++ t) := by
  have h := healthCheckServe_spec.2 [("A", ⟨true, "", none⟩), ("B", ⟨false, "", none⟩)]
    (by decide)
  refine ⟨h.2.1 ⟨("B", ⟨false, "", none⟩), by simp, rfl⟩, ?_, ?_⟩
  · obtain ⟨s, t, heq⟩ := h.2.2 ("A", ⟨true, "", none⟩) (by simp)
    exact ⟨s, t, by simpa [fmtHealthResult, boolString] using heq⟩
  · obtain ⟨s, t, heq⟩ := h.2.2 ("B", ⟨false, "", none⟩) (by simp)
    exact ⟨s, t, by simpa [fmtHealthResult, boolString] using heq⟩

/-- C5 (counterexample to the claim as stated): for
`logger=x&level=bogus` the response status is 400 and no level changes,
but the body is `Level is not supported` followed by a newline
(`http.Error` uses `fmt.Fprintln`), not the bare string the claim
states. -/
theorem logTask_bad_level_counterexample :
    (logTaskServe golStateAllInfo ["x"] ["bogus"]).2.status = 400
  ∧ (logTaskServe golStateAllInfo ["x"] ["bogus"]).2.body ≠ "Level is not supported"
  ∧ (logTaskServe golStateAllInfo ["x"] ["bogus"]).2.body = "Level is not supported\n" := by
  refine ⟨rfl, ?_, rfl⟩
  decide

/-- C5 (amended): a request with at least one `logger` value and a
non-empty `level` value matching none of the seven level names
case-insensitively gets status 400 with body `Level is not supported`
followed by a newline, and the registry is returned unchanged — no
`SetLevel` happens. -/
theorem logTask_bad_level (st : GolState) (loggers levels : List String)
    (hlog : loggers ≠ [])
    (hlv : queryGet levels ≠ "")
    (hbad : ∀ l ∈ logLevels, equalFold (queryGet levels) (LevelString l) = false) :
    logTaskServe st loggers levels
      = (st, { status := 400
               headers := [("Content-Type", "text/plain; charset=utf-8")]
               body := "Level is not supported\n" }) := by
  have hparse : parseLogLevel (queryGet levels) = none := by
    rw [parseLogLevel, List.find?_eq_none]
    intro l hl
    simp [hbad l hl]
  have hempty : loggers.isEmpty = false := by
    cases loggers with
    | nil => exact absurd rfl hlog
    | cons a l => rfl
  have hbeq : (queryGet levels == "") = false := by
    simpa using hlv
  simp [logTaskServe, hempty, hbeq, hparse, httpError]

/-- Witness for C5 (amended): the concrete request
`logger=x&level=bogus` against the all-INFO registry. -/
theorem logTask_bad_level_witness :
    logTaskServe golStateAllInfo ["x"] ["bogus"]
      = (golStateAllInfo,
         { status := 400
           headers := [("Content-Type", "text/plain; charset=utf-8")]
           body := "Level is not supported\n" }) :=
  logTask_bad_level golStateAllInfo ["x"] ["bogus"] (by decide) (by decide) (by decide)

/-- C6 (counterexample to the claim as stated): the gc task's response
does not carry the `Cache-Control` header (and neither does the log
task's). -/
theorem cacheControl_counterexample :
    cacheControlHeader ∉ gcTaskServe.headers
  ∧ cacheControlHeader ∉ (logTaskServe golStateAllInfo ["x"] []).2.headers := by
  constructor
  · intro h
    simp [gcTaskServe] at h
  · intro h
    simp [logTaskServe, queryGet, levelReport, golStateAllInfo] at h

/-- C6 (amended): every admin page handler — home, metrics, ping,
runtime, healthcheck — sets
`Cache-Control: must-revalidate,no-cache,no-store` on every response,
but the gc task and the log task set no such header on any request. -/
theorem cacheControl_handlers_not_tasks (hs : List AdminHandler) (cp : String)
    (kvs : List (String × String)) (m : RuntimeStats)
    (results : List (String × HealthResult))
    (st : GolState) (loggers levels : List String) :
    cacheControlHeader ∈ (adminHomeServe hs cp).headers
  ∧ cacheControlHeader ∈ (metricsServe kvs).headers
  ∧ cacheControlHeader ∈ pingServe.headers
  ∧ cacheControlHeader ∈ (runtimeServe m).headers
  ∧ cacheControlHeader ∈ (healthCheckServe results).headers
  ∧ cacheControlHeader ∉ gcTaskServe.headers
  ∧ cacheControlHeader ∉ (logTaskServe st loggers levels).2.headers := by
  refine ⟨by simp [adminHomeServe], by simp [metricsServe], by simp [pingServe],
    by simp [runtimeServe], ?_, ?_, ?_⟩
  · rw [healthCheckServe]
    cases h : results.length == 0 <;> simp
  · intro h
    simp [gcTaskServe] at h
  · intro hmem
    simp only [logTaskServe] at hmem
    split at hmem
    · simp at hmem
    · split at hmem
      · simp at hmem
      · split at hmem
        · simp [httpError, cacheControlHeader] at hmem
        · simp at hmem

/-- C7 (counterexample to the claim as stated): adding a handler whose
path `/ping` collides with the default ping handler's path is silently
permitted — both stay registered and the paths are no longer pairwise
distinct. -/
theorem addHandler_collision_counterexample :
    ((AddHandler NewAdminEnvironment [⟨"/ping", "Ping2"⟩]).handlers.map AdminHandler.routePath
        = ["/metrics", "/ping", "/runtime", "/healthcheck", "/ping"])
  ∧ ¬ List.Pairwise (fun a b => a ≠ b)
      ((AddHandler NewAdminEnvironment [⟨"/ping", "Ping2"⟩]).handlers.map AdminHandler.routePath) := by
  refine ⟨rfl, ?_⟩
  decide

/-- C7 (amended): the registries keep no distinctness invariant —
`AddHandler` and `AddTask` append unconditionally and never reject, so
a handler whose path collides with an already-registered handler's
path is silently permitted (the default environment plus a second
`/ping` handler holds that path twice). -/
theorem addHandler_appends (env : AdminEnvironment) (hs : List AdminHandler)
    (ts : List AdminTask) :
    (AddHandler env hs).handlers = env.handlers ++ hs
  ∧ (AddHandler env hs).tasks = env.tasks
  ∧ (AddTask env ts).tasks = env.tasks ++ ts
  ∧ (AddTask env ts).handlers = env.handlers
  ∧ ((AddHandler NewAdminEnvironment [⟨"/ping", "Ping2"⟩]).handlers.map
      AdminHandler.routePath).count "/ping" = 2 := by
  exact ⟨rfl, rfl, rfl, rfl, by decide⟩

/-- C8: setting a logger's level through the log task and then querying
it reads the level back: `logger=<name>&level=WARN` followed by
`logger=<name>` with no level reports `<name>: WARN\n`, provided the
named logger supports dynamic level mutation. -/
theorem logTask_set_then_get (st : GolState) (name : String)
    (hdef : (st name).isDefault = true) :
    (logTaskServe ((logTaskServe st [name] ["WARN"]).1) [name] []).2.body
      = name ++ ": WARN\n" := by
  have hparse : parseLogLevel "WARN" = some Level.warn := by decide
  have h1 : (logTaskServe st [name] ["WARN"]).1
      = setLoggerLevels st [name] Level.warn := by
    simp [logTaskServe, queryGet, hparse]
  have h2 : setLoggerLevels st [name] Level.warn name
      = { st name with level := Level.warn } := by
    simp [setLoggerLevels, setLoggerLevel, hdef]
  rw [h1]
  simp only [logTaskServe, queryGet, List.headD_nil, List.isEmpty_cons,
    Bool.false_eq_true, if_false, beq_self_eq_true, if_true, List.map_cons,
    List.map_nil, levelReport, concatAll, h2]
  simp [hdef, LevelString, String.append_assoc]

/-- Witness for C8: against the all-INFO registry, setting logger `x`
to WARN then querying it reports `x: WARN\n`. -/
theorem logTask_set_then_get_witness :
    (logTaskServe ((logTaskServe golStateAllInfo ["x"] ["WARN"]).1) ["x"] []).2.body
      = "x: WARN\n" := by
  have h := logTask_set_then_get golStateAllInfo "x" rfl
  simpa using h

/-- C9: `gomelon.Run` with a non-empty argument list returns the run
result of the first registered command whose name equals the first
argument (that command really bears that name and is registered); with
an empty argument list or no matching name it prints the catalogue of
names and descriptions and returns `nil`. -/
theorem gomelonRun_spec (commands : List Command) (args : List String) :
    (args = [] →
        gomelonRun commands args = .help (printHelp commands)
      ∧ outcomeError (gomelonRun commands args) = none)
  ∧ (∀ a rest c, args = a :: rest →
        commands.find? (fun c0 => c0.name == a) = some c →
        gomelonRun commands args = .ran c.runResult ∧ c.name = a ∧ c ∈ commands)
  ∧ (∀ a rest, args = a :: rest →
        commands.find? (fun c0 => c0.name == a) = none →
        gomelonRun commands args = .help (printHelp commands)
      ∧ outcomeError (gomelonRun commands args) = none) := by
  refine ⟨?_, ?_, ?_⟩
  · rintro rfl
    exact ⟨rfl, rfl⟩
  · rintro a rest c rfl hfind
    refine ⟨?_, ?_, List.mem_of_find?_eq_some hfind⟩
    · simp [gomelonRun, hfind]
    · have := List.find?_some hfind
      simpa using this
  · rintro a rest rfl hfind
    constructor
    · simp [gomelonRun, hfind]
    · simp [gomelonRun, hfind, outcomeError]

/-- Witness for C9: with commands `server` (failing) and `check`
(succeeding), the argument `check` selects and runs `check`; the empty
argument list yields the catalogue and `nil`. -/
theorem gomelonRun_spec_witness :
    gomelonRun [⟨"server", "s", some "e"⟩, ⟨"check", "c", none⟩] ["check"]
        = .ran none
  ∧ outcomeError (gomelonRun [⟨"server", "s", some "e"⟩, ⟨"check", "c", none⟩] [])
        = none := by
  constructor
  · have h := (gomelonRun_spec [⟨"server", "s", some "e"⟩, ⟨"check", "c", none⟩]
      ["check"]).2.1 "check" [] ⟨"check", "c", none⟩ rfl (by decide)
    exact h.1
  · exact ((gomelonRun_spec [⟨"server", "s", some "e"⟩, ⟨"check", "c", none⟩] []).1
      rfl).2

/-- C10: a request with at least one `logger` value whose `level`
parameter is present but empty is served exactly like one with no
`level` parameter: no 400, the registry is unchanged, and the body is
the per-logger level report. -/
theorem logTask_empty_level (st : GolState) (loggers rest : List String)
    (hlog : loggers ≠ []) :
    logTaskServe st loggers ("" :: rest) = logTaskServe st loggers []
  ∧ (logTaskServe st loggers ("" :: rest)).1 = st
  ∧ (logTaskServe st loggers ("" :: rest)).2.status = 200
  ∧ (logTaskServe st loggers ("" :: rest)).2.body = levelReport st loggers := by
  have hempty : loggers.isEmpty = false := by
    cases loggers with
    | nil => exact absurd rfl hlog
    | cons a l => rfl
  refine ⟨rfl, ?_, ?_, ?_⟩ <;> simp [logTaskServe, queryGet, hempty]

/-- Witness for C10: `logger=x&level=` against the all-INFO registry
behaves exactly like `logger=x`. -/
theorem logTask_empty_level_witness :
    logTaskServe golStateAllInfo ["x"] [""] = logTaskServe golStateAllInfo ["x"] []
  ∧ (logTaskServe golStateAllInfo ["x"] [""]).1 = golStateAllInfo
  ∧ (logTaskServe golStateAllInfo ["x"] [""]).2.status = 200 :=
  have h := logTask_empty_level golStateAllInfo ["x"] [] (by decide)
  ⟨h.1, h.2.1, h.2.2.1⟩

end Gomelon
